import Mathlib

/-!
Shallow embedding of `main.py` (House-Price-Prediction-Scraper).

The scraper's external collaborators are modelled as oracle functions carried
in an `Env` record: the HTTP fetch capability (`requests.get`, one oracle per
call site, so that distinct calls to the same URL may behave differently, as
real transports do), the geocoding capability (`geopy.geocoders.Nominatim`)
and the geodesic-distance computation (`geopy.distance.geodesic(...).km`).
HTML pages are modelled by the outcome of the fixed structural selectors the
code applies to them (`BeautifulSoup.find` / `find_all` with hard-coded
classes): a listing page is the list of its cards plus the two next-page
indicator nodes; a card is the five optional nodes the code looks up; a
detail page is its optional price node.  Coordinates and distances are
rationals.  A Python exception escaping an expression is modelled by the
`raised` constructor of the corresponding oracle outcome; `Except Unit` marks
the one in-pipeline expression that can itself raise (`price_tag['href']`).
-/

namespace Scraper

/-- Model of Python `str.strip()`, leading part: drop leading whitespace. -/
def dropLeading : List Char → List Char
  | [] => []
  | c :: cs => if c.isWhitespace then dropLeading cs else c :: cs

/-- Model of Python `str.strip()` on the character list: drop leading and
trailing whitespace. -/
def stripChars (l : List Char) : List Char :=
  ((dropLeading l).reverse |> dropLeading).reverse

/-- Model of Python `str.strip()`. -/
def pyStrip (s : String) : String :=
  String.mk (stripChars s.toList)

/-- `startsWithL n h`: the character list `n` is an initial segment of `h`. -/
def startsWithL : List Char → List Char → Bool
  | [], _ => true
  | _ :: _, [] => false
  | c :: cs, d :: ds => c = d && startsWithL cs ds

/-- Auxiliary for `pyIn`: does `needle` start at some position of the list? -/
def pyInAux (needle : List Char) : List Char → Bool
  | [] => startsWithL needle []
  | d :: ds => startsWithL needle (d :: ds) || pyInAux needle ds

/-- Model of Python's substring test `needle in hay`. -/
def pyIn (needle hay : String) : Bool :=
  pyInAux needle.toList hay.toList

/-- Model of Python `text.split(',', 1)` when a comma is present: the part
before the first comma and the part after it; `none` when no comma occurs. -/
def splitFirstComma : List Char → Option (List Char × List Char)
  | [] => none
  | c :: cs =>
    if c = ',' then some ([], cs)
    else
      match splitFirstComma cs with
      | some (a, b) => some (c :: a, b)
      | none => none

/-- `NAIROBI_COORDS = (-1.2921, 36.8219)` from `main.py` line 11. -/
def NAIROBI_COORDS : ℚ × ℚ := (-12921 / 10000, 368219 / 10000)

/-- `MAX_DISTANCE = 30` (km) from `main.py` line 12. -/
def MAX_DISTANCE : ℚ := 30

/-- Outcome of `geolocator.geocode(...)`: the call may raise (transport
error), or return `None` (no match), or return a located point. -/
inductive GeoOutcome where
  | raised
  | resolved (r : Option (ℚ × ℚ))
  deriving DecidableEq

/-- Outcome of a `requests.get(...)` + `BeautifulSoup(...)` round trip:
either the request raised, or the selectors' view of the returned page. -/
inductive FetchOutcome (α : Type) where
  | raised
  | ok (page : α)
  deriving DecidableEq

/-- Equality of `Except` outcomes is decidable (used to evaluate the
embedding on concrete inputs). -/
instance exceptDecEq {ε α : Type} [DecidableEq ε] [DecidableEq α] :
    DecidableEq (Except ε α)
  | .error a, .error b =>
    if h : a = b then .isTrue (by rw [h])
    else .isFalse (fun hc => h (Except.error.inj hc))
  | .error _, .ok _ => .isFalse (fun hc => Except.noConfusion hc)
  | .ok _, .error _ => .isFalse (fun hc => Except.noConfusion hc)
  | .ok a, .ok b =>
    if h : a = b then .isTrue (by rw [h])
    else .isFalse (fun hc => h (Except.ok.inj hc))

/-- The first `a.no-underline` node of a card (`main.py` line 115), as the
code uses it: only its `href` attribute matters.  `href := none` models an
anchor node that lacks the attribute, in which case `price_tag['href']`
raises `KeyError`. -/
structure ATag where
  href : Option String
  deriving DecidableEq

/-- One listing card (`main.py` lines 111-115): the five nodes the code
selects, each `none` when absent.  Text-bearing nodes are modelled by their
`.text` content. -/
structure Card where
  location : Option String
  size : Option String
  bedrooms : Option String
  bathrooms : Option String
  price_tag : Option ATag
  deriving DecidableEq

/-- A parsed listing page: its cards (`main.py` line 105) and the presence of
the two next-page indicator nodes checked by `has_next_page`
(`main.py` lines 145-146). -/
structure ListingPage where
  cards : List Card
  next_button_div : Bool
  next_svg : Bool
  deriving DecidableEq

/-- A parsed detail page: the text of the price `span` selected at
`main.py` line 49, `none` when the node is absent. -/
structure DetailPage where
  price_text : Option String
  deriving DecidableEq

/-- The scraper's external collaborators.  `fetch_props` is the
`requests.get(url)` at `main.py` line 103 (inside `fetch_properties`),
`fetch_outer` the one at line 165 (inside `scrape_all_properties`) — the code
fetches every listing page twice — and `fetch_detail` the one at line 47
(inside `extract_price`). -/
structure Env where
  geocode : String → GeoOutcome
  geodesic_km : ℚ × ℚ → ℚ × ℚ → ℚ
  fetch_props : String → FetchOutcome ListingPage
  fetch_outer : String → FetchOutcome ListingPage
  fetch_detail : String → FetchOutcome DetailPage

/-- `is_within_nairobi_area` (`main.py` lines 14-34): geocode
`location + ", Kenya"`; on an exception or no match return `False`;
otherwise return whether the geodesic distance from Nairobi's center is
`<= MAX_DISTANCE`. -/
def is_within_nairobi_area (env : Env) (location : String) : Bool :=
  match env.geocode (location ++ ", Kenya") with
  | .raised => false
  | .resolved none => false
  | .resolved (some property_coords) =>
      decide (env.geodesic_km NAIROBI_COORDS property_coords ≤ MAX_DISTANCE)

/-- `extract_price` (`main.py` lines 36-53): fetch the detail page; on any
exception return `'None'`; otherwise the stripped price text, or `'None'`
when the price node is absent. -/
def extract_price (env : Env) (details_url : String) : String :=
  match env.fetch_detail details_url with
  | .raised => "None"
  | .ok page =>
    match page.price_text with
    | some t => pyStrip t
    | none => "None"

/-- The `property_types` dict of `get_property_type` (`main.py` lines 65-71),
in insertion order (Python dict iteration order). -/
def property_types : List (String × String × String) :=
  [("houses-for-sale", ("House", "Sale")),
   ("flats-apartments-for-sale", ("Apartment", "Sale")),
   ("houses-for-rent", ("House", "Rent")),
   ("flats-apartments-for-rent", ("Apartment", "Rent")),
   ("bedsitters-for-rent", ("Bedsitter", "Rent"))]

/-- `get_property_type` (`main.py` lines 55-75): first key that is a
substring of the URL wins; otherwise `('Unknown', 'Unknown')`. -/
def get_property_type (url : String) : String × String :=
  match property_types.find? (fun kv => pyIn kv.1 url) with
  | some kv => kv.2
  | none => ("Unknown", "Unknown")

/-- `parse_location` (`main.py` lines 77-90): if a comma occurs, split on the
first comma and strip both halves; otherwise the stripped text and `''`. -/
def parse_location (location_text : String) : String × String :=
  match splitFirstComma location_text.toList with
  | some (a, b) => (pyStrip (String.mk a), pyStrip (String.mk b))
  | none => (pyStrip location_text, "")

/-- The `(location_text, other_location_details)` pair computed at
`main.py` line 117: `parse_location(location.text.strip())` when the
location node exists, `('None', 'None')` otherwise. -/
def card_location_fields (card : Card) : String × String :=
  match card.location with
  | some t => parse_location (pyStrip t)
  | none => ("None", "None")

/-- `x.text.strip() if x else 'None'` (`main.py` lines 124-126). -/
def optStrip : Option String → String
  | some t => pyStrip t
  | none => "None"

/-- The `details_url` expression at `main.py` line 127:
`'https://www.buyrentkenya.com' + price_tag['href'] if price_tag else 'None'`.
`price_tag['href']` raises `KeyError` when the anchor lacks the attribute;
that exception escapes to the page-level handler. -/
def details_url_of (card : Card) : Except Unit String :=
  match card.price_tag with
  | some tag =>
    match tag.href with
    | some h => .ok ("https://www.buyrentkenya.com" ++ h)
    | none => .error ()
  | none => .ok "None"

/-- The body of the per-card loop of `fetch_properties`
(`main.py` lines 109-131): `.ok none` when the geographic filter rejects the
card (`continue`), `.ok (some row)` when a row is yielded, `.error ()` when
the card's processing raises (only `price_tag['href']` can). -/
def process_card (env : Env) (pt pu : String) (card : Card) :
    Except Unit (Option (List String)) :=
  if is_within_nairobi_area env (card_location_fields card).1 then
    match details_url_of card with
    | .error _ => .error ()
    | .ok details_url =>
      .ok (some [(card_location_fields card).1, (card_location_fields card).2,
                 optStrip card.size, optStrip card.bedrooms,
                 optStrip card.bathrooms, extract_price env details_url, pt, pu])
  else
    .ok none

/-- The per-card loop of `fetch_properties`: rows yielded in order.  An
exception raised mid-loop is caught by the function's page-level handler, so
the rows already yielded stand and the remaining cards are skipped. -/
def process_cards (env : Env) (pt pu : String) : List Card → List (List String)
  | [] => []
  | c :: cs =>
    match process_card env pt pu c with
    | .error _ => []
    | .ok none => process_cards env pt pu cs
    | .ok (some row) => row :: process_cards env pt pu cs

/-- `fetch_properties` (`main.py` lines 92-133): fetch and parse the page (an
exception yields no rows), resolve the category tags once, then process the
cards. -/
def fetch_properties (env : Env) (url : String) : List (List String) :=
  match env.fetch_props url with
  | .raised => []
  | .ok soup =>
    process_cards env (get_property_type url).1 (get_property_type url).2 soup.cards

/-- `has_next_page` (`main.py` lines 135-146): both the pagination container
div and the forward icon svg must be present. -/
def has_next_page (soup : ListingPage) : Bool :=
  soup.next_button_div && soup.next_svg

/-- The page URL built at `main.py` line 162:
`f"{base_url}?page={page}" if page > 1 else base_url`. -/
def page_url (base_url : String) (page : Nat) : String :=
  if page > 1 then base_url ++ "?page=" ++ toString page else base_url

/-- One iteration of the `while True` loop of `scrape_all_properties`
(`main.py` lines 161-177) for a given page number. -/
inductive PageStep where
  /-- The unprotected `requests.get(url)` at line 165 raised: the exception
  propagates out of `scrape_all_properties` and aborts the run. -/
  | crashed
  /-- `not properties_found or not has_next_page(soup)`: write `rows`, then
  `break` out of this category's pagination. -/
  | exhausted (rows : List (List String))
  /-- Write `rows`, then `page += 1` and loop. -/
  | next (rows : List (List String))
  deriving DecidableEq

/-- The loop body of `scrape_all_properties` at page `page`: fetch the page
(unprotected), iterate `fetch_properties` writing each row, then decide
between `break` and `page += 1`. -/
def page_step (env : Env) (base_url : String) (page : Nat) : PageStep :=
  match env.fetch_outer (page_url base_url page) with
  | .raised => .crashed
  | .ok soup =>
    if (fetch_properties env (page_url base_url page)).isEmpty
        || !has_next_page soup then
      .exhausted (fetch_properties env (page_url base_url page))
    else
      .next (fetch_properties env (page_url base_url page))

/-- Result of running (part of) the scraper: the data rows written to the
CSV in order, and whether an uncaught exception aborted the run (a crash
makes the process exit with a nonzero status). -/
structure RunResult where
  rows : List (List String)
  crashed : Bool
  deriving DecidableEq

/-- The `while True` pagination loop of `scrape_all_properties` starting at
`page`, with explicit fuel; `none` means the fuel ran out before the loop
ended (the code itself has no bound). -/
def scrape_category (env : Env) (base_url : String) : Nat → Nat → Option RunResult
  | _, 0 => none
  | page, fuel + 1 =>
    match page_step env base_url page with
    | .crashed => some ⟨[], true⟩
    | .exhausted rows => some ⟨rows, false⟩
    | .next rows =>
      match scrape_category env base_url (page + 1) fuel with
      | none => none
      | some r => some ⟨rows ++ r.rows, r.crashed⟩

/-- The `for base_url in base_urls` loop of `scrape_all_properties`
(`main.py` lines 159-177).  A crash in one category propagates: the
remaining categories are never visited. -/
def scrape_categories (env : Env) (fuel : Nat) : List String → Option RunResult
  | [] => some ⟨[], false⟩
  | base :: rest =>
    match scrape_category env base 1 fuel with
    | none => none
    | some r =>
      if r.crashed then some r
      else
        match scrape_categories env fuel rest with
        | none => none
        | some r2 => some ⟨r.rows ++ r2.rows, r2.crashed⟩

/-- The header row written once at `main.py` line 157. -/
def header_row : List String :=
  ["Location", "Other Location Details", "Size", "Bedrooms", "Bathrooms",
   "Price", "Property Type", "Purchase Type"]

/-- The produced CSV file as a list of rows (header first), plus the crash
flag. -/
structure CsvFile where
  file_rows : List (List String)
  crashed : Bool
  deriving DecidableEq

/-- `scrape_all_properties` (`main.py` lines 148-177): write the header, then
scrape every category in order. -/
def scrape_all_properties (env : Env) (base_urls : List String) (fuel : Nat) :
    Option CsvFile :=
  match scrape_categories env fuel base_urls with
  | none => none
  | some r => some ⟨header_row :: r.rows, r.crashed⟩

/-- The double-quote character, `csv`'s default quote character. -/
def quoteChar : Char := Char.ofNat 34

/-- Python `csv.writer` (default dialect) quotes a field iff it contains the
delimiter, the quote character, or a line-terminator character. -/
def needsQuoting (f : String) : Bool :=
  f.toList.any (fun c => c = ',' || c = quoteChar || c = '\r' || c = '\n')

/-- Double every quote character (csv's escaping inside a quoted field). -/
def escapeQuotes : List Char → List Char
  | [] => []
  | c :: cs =>
    if c = quoteChar then quoteChar :: quoteChar :: escapeQuotes cs
    else c :: escapeQuotes cs

/-- One field as serialized by Python `csv.writer` with the default dialect
(`QUOTE_MINIMAL`). -/
def csv_field (f : String) : String :=
  if needsQuoting f then
    String.mk (quoteChar :: escapeQuotes f.toList ++ [quoteChar])
  else f

/-- The text of one row as written by `csv.writer.writerow` (default
dialect), without the trailing line terminator. -/
def csv_line (row : List String) : String :=
  String.intercalate "," (row.map csv_field)

/-- `headNotWs l`: `l` is empty or its first character is not whitespace. -/
def headNotWs : List Char → Bool
  | [] => true
  | c :: _ => !c.isWhitespace

/-- `noEdgeWs l`: `l` has no leading and no trailing whitespace character. -/
def noEdgeWs (l : List Char) : Bool :=
  headNotWs l && headNotWs l.reverse

/-- The texts passed to `is_within_nairobi_area` while processing one card:
line 120 calls it exactly once per card, on `location_text` — also when the
location node was absent and `location_text` is the placeholder `'None'`. -/
def card_geo_queries (card : Card) : List String :=
  [(card_location_fields card).1]

/-- The URLs passed to `requests.get` inside `extract_price` while processing
one card: `extract_price details_url` is reached exactly when the geographic
filter accepted the card and `details_url` was computed without raising —
also when the link node was absent and `details_url` is the placeholder
`'None'` — and `extract_price` always performs the fetch on its argument. -/
def card_detail_fetches (env : Env) (card : Card) : List String :=
  if is_within_nairobi_area env (card_location_fields card).1 then
    match details_url_of card with
    | .ok du => [du]
    | .error _ => []
  else []

/-! ### Concrete fixtures used by witnesses and counterexamples -/

/-- A listing page with no cards and no next-page indicator. -/
def pageEmpty : ListingPage :=
  { cards := [], next_button_div := false, next_svg := false }

/-- An environment in which every external call fails. -/
def envFail : Env :=
  { geocode := fun _ => .raised
    geodesic_km := fun _ _ => 0
    fetch_props := fun _ => .raised
    fetch_outer := fun _ => .raised
    fetch_detail := fun _ => .raised }

/-- An environment in which the fetch inside `fetch_properties` fails while
the fetch inside `scrape_all_properties` succeeds (a transient transport
failure between the two requests for the same page). -/
def envMixed : Env :=
  { geocode := fun _ => .raised
    geodesic_km := fun _ _ => 0
    fetch_props := fun _ => .raised
    fetch_outer := fun _ => .ok pageEmpty
    fetch_detail := fun _ => .raised }

/-- A fully populated card. -/
def cardA : Card :=
  { location := some "  Kilimani, Nairobi "
    size := some " 100 m2 "
    bedrooms := some "3"
    bathrooms := some "2"
    price_tag := some { href := some "/listings/1" } }

/-- A card whose detail-link node is absent but whose location parses. -/
def cardB : Card :=
  { location := some "Kilimani"
    size := none
    bedrooms := none
    bathrooms := none
    price_tag := none }

/-- A card with every node absent, location included. -/
def cardNoLoc : Card :=
  { location := none, size := none, bedrooms := none, bathrooms := none,
    price_tag := none }

/-- A single-card page with no next-page indicator. -/
def pageA : ListingPage :=
  { cards := [cardA], next_button_div := true, next_svg := false }

/-- An environment in which every location geocodes to a point at distance 0
from the reference center, listing fetches return `pageA`, and detail fetches
fail. -/
def envA : Env :=
  { geocode := fun _ => .resolved (some (0, 0))
    geodesic_km := fun _ _ => 0
    fetch_props := fun _ => .ok pageA
    fetch_outer := fun _ => .ok pageA
    fetch_detail := fun _ => .raised }

/-- Like `envA` but the listing pages hold only `cardB`. -/
def envB : Env :=
  { geocode := fun _ => .resolved (some (0, 0))
    geodesic_km := fun _ _ => 0
    fetch_props := fun _ => .ok { cards := [cardB], next_button_div := false, next_svg := false }
    fetch_outer := fun _ => .ok pageEmpty
    fetch_detail := fun _ => .raised }

/-- An environment in which every geocode query — the placeholder
`"None, Kenya"` included — resolves to the reference center itself. -/
def envNone : Env :=
  { geocode := fun _ => .resolved (some NAIROBI_COORDS)
    geodesic_km := fun _ _ => 0
    fetch_props := fun _ => .ok { cards := [cardNoLoc], next_button_div := false, next_svg := false }
    fetch_outer := fun _ => .ok pageEmpty
    fetch_detail := fun _ => .raised }

/-- An environment in which every location resolves to a point 100 km away
from the reference center. -/
def envFar : Env :=
  { geocode := fun _ => .resolved (some (10, 10))
    geodesic_km := fun _ _ => 100
    fetch_props := fun _ => .ok pageA
    fetch_outer := fun _ => .ok pageA
    fetch_detail := fun _ => .raised }

/-- An environment in which every location resolves to a point at distance
exactly `MAX_DISTANCE` from the reference center. -/
def envBoundary : Env :=
  { geocode := fun _ => .resolved (some (1, 1))
    geodesic_km := fun _ _ => 30
    fetch_props := fun _ => .ok pageA
    fetch_outer := fun _ => .ok pageA
    fetch_detail := fun _ => .raised }

/-- The first category base URL of `main.py` line 182. -/
def urlSale : String := "https://www.buyrentkenya.com/houses-for-sale"

/-- The last category base URL of `main.py` line 186. -/
def urlBedsit : String := "https://www.buyrentkenya.com/bedsitters-for-rent"

/-- The row `fetch_properties envA urlSale` yields for `cardA`. -/
def rowA : List String :=
  ["Kilimani", "Nairobi", "100 m2", "3", "2", "None", "House", "Sale"]

/-- The CSV file produced by `scrape_all_properties envA [urlSale] 3`. -/
def outA : CsvFile := { file_rows := [header_row, rowA], crashed := false }

/-! ### Helper lemmas about `dropLeading`, `stripChars`, `pyStrip` -/

theorem mem_dropLeading {c : Char} {l : List Char} (h : c ∈ dropLeading l) :
    c ∈ l := by
  induction l with
  | nil => simp [dropLeading] at h
  | cons d ds ih =>
    by_cases hd : d.isWhitespace
    · rw [dropLeading, if_pos hd] at h
      exact List.mem_cons_of_mem _ (ih h)
    · rwa [dropLeading, if_neg hd] at h

theorem dropLeading_shape (l : List Char) :
    dropLeading l = [] ∨
      ∃ c cs, dropLeading l = c :: cs ∧ c.isWhitespace = false := by
  induction l with
  | nil => exact Or.inl rfl
  | cons d ds ih =>
    by_cases hd : d.isWhitespace
    · rw [dropLeading, if_pos hd]
      exact ih
    · refine Or.inr ⟨d, ds, ?_, ?_⟩
      · rw [dropLeading, if_neg hd]
      · simpa using hd

theorem dropLeading_suffix (l : List Char) : ∃ t, l = t ++ dropLeading l := by
  induction l with
  | nil => exact ⟨[], rfl⟩
  | cons d ds ih =>
    by_cases hd : d.isWhitespace
    · obtain ⟨t, ht⟩ := ih
      refine ⟨d :: t, ?_⟩
      rw [dropLeading, if_pos hd, List.cons_append, ← ht]
    · refine ⟨[], ?_⟩
      rw [dropLeading, if_neg hd, List.nil_append]

theorem head?_append_left {α : Type} {a : List α} (b : List α) (h : a ≠ []) :
    (a ++ b).head? = a.head? := by
  cases a with
  | nil => exact absurd rfl h
  | cons x xs => rfl

theorem mem_stripChars {c : Char} {l : List Char} (h : c ∈ stripChars l) :
    c ∈ l := by
  unfold stripChars at h
  rw [List.mem_reverse] at h
  have h2 := mem_dropLeading h
  rw [List.mem_reverse] at h2
  exact mem_dropLeading h2

theorem headNotWs_stripChars (l : List Char) :
    headNotWs (stripChars l) = true := by
  have hdef : stripChars l = (dropLeading ((dropLeading l).reverse)).reverse := rfl
  cases hX : dropLeading ((dropLeading l).reverse) with
  | nil => rw [hdef, hX]; rfl
  | cons x xs =>
    obtain ⟨t, ht⟩ := dropLeading_suffix ((dropLeading l).reverse)
    rw [hX] at ht
    have hm : dropLeading l = (x :: xs).reverse ++ t.reverse := by
      have h2 := congrArg List.reverse ht
      rw [List.reverse_reverse, List.reverse_append] at h2
      exact h2
    rcases dropLeading_shape l with h0 | ⟨c, cs, hcs, hws⟩
    · rw [h0] at hm
      have : (x :: xs).reverse = [] := (List.append_eq_nil.mp hm.symm).1
      simp at this
    · rw [hcs] at hm
      have hne : (x :: xs).reverse ≠ [] := by simp
      have hh : (c :: cs).head? = ((x :: xs).reverse).head? := by
        rw [hm, head?_append_left _ hne]
      rw [hdef, hX]
      cases hr : (x :: xs).reverse with
      | nil => exact absurd hr hne
      | cons y ys =>
        rw [hr] at hh
        have hcy : c = y := by simpa using hh
        rw [headNotWs, ← hcy, hws]
        rfl

theorem noEdgeWs_stripChars (l : List Char) :
    noEdgeWs (stripChars l) = true := by
  unfold noEdgeWs
  rw [headNotWs_stripChars, Bool.true_and]
  have hdef : (stripChars l).reverse = dropLeading ((dropLeading l).reverse) := by
    unfold stripChars
    rw [List.reverse_reverse]
  rcases dropLeading_shape ((dropLeading l).reverse) with h0 | ⟨c, cs, hcs, hws⟩
  · rw [hdef, h0]; rfl
  · rw [hdef, hcs, headNotWs, hws]; rfl

theorem pyStrip_toList (s : String) : (pyStrip s).toList = stripChars s.toList := rfl

theorem noEdgeWs_pyStrip (s : String) : noEdgeWs (pyStrip s).toList = true := by
  rw [pyStrip_toList]
  exact noEdgeWs_stripChars _

theorem mem_pyStrip {c : Char} {s : String} (h : c ∈ (pyStrip s).toList) :
    c ∈ s.toList := by
  rw [pyStrip_toList] at h
  exact mem_stripChars h

/-! ### Helper lemmas about `splitFirstComma` and `parse_location` -/

theorem splitFirstComma_none {l : List Char} :
    splitFirstComma l = none ↔ ',' ∉ l := by
  induction l with
  | nil => simp [splitFirstComma]
  | cons c cs ih =>
    by_cases hc : c = ','
    · subst hc
      simp [splitFirstComma]
    · rw [splitFirstComma, if_neg hc]
      cases h : splitFirstComma cs with
      | none =>
        constructor
        · intro _ hmem
          rcases List.mem_cons.mp hmem with h1 | h2
          · exact hc h1.symm
          · exact (ih.mp h) h2
        · intro _; rfl
      | some ab =>
        obtain ⟨a, b⟩ := ab
        constructor
        · intro hcon
          exact Option.noConfusion hcon
        · intro hmem
          exfalso
          have hnotmem : ',' ∉ cs := fun hx => hmem (List.mem_cons_of_mem _ hx)
          rw [ih.mpr hnotmem] at h
          exact Option.noConfusion h

theorem splitFirstComma_some :
    ∀ {l a b : List Char}, splitFirstComma l = some (a, b) →
      l = a ++ ',' :: b ∧ ',' ∉ a := by
  intro l
  induction l with
  | nil => intro a b h; exact Option.noConfusion h
  | cons c cs ih =>
    intro a b h
    by_cases hc : c = ','
    · subst hc
      rw [splitFirstComma, if_pos rfl] at h
      have h2 := Option.some.inj h
      have ha : a = [] := (congrArg Prod.fst h2).symm
      have hb : b = cs := (congrArg Prod.snd h2).symm
      subst ha; subst hb
      exact ⟨rfl, by simp⟩
    · rw [splitFirstComma, if_neg hc] at h
      cases h2 : splitFirstComma cs with
      | none => rw [h2] at h; exact Option.noConfusion h
      | some ab =>
        obtain ⟨a', b'⟩ := ab
        rw [h2] at h
        have h3 := Option.some.inj h
        have ha : a = c :: a' := (congrArg Prod.fst h3).symm
        have hb : b = b' := (congrArg Prod.snd h3).symm
        subst ha; subst hb
        obtain ⟨hl, hnc⟩ := ih h2
        constructor
        · rw [List.cons_append, ← hl]
        · intro hmem
          rcases List.mem_cons.mp hmem with h1 | h4
          · exact hc h1.symm
          · exact hnc h4

theorem parse_location_fst (s : String) :
    ',' ∉ ((parse_location s).1).toList ∧
      noEdgeWs ((parse_location s).1).toList = true := by
  unfold parse_location
  cases h : splitFirstComma s.toList with
  | none =>
    constructor
    · intro hmem
      exact (splitFirstComma_none.mp h) (mem_pyStrip hmem)
    · exact noEdgeWs_pyStrip s
  | some ab =>
    obtain ⟨a, b⟩ := ab
    obtain ⟨hl, hnc⟩ := splitFirstComma_some h
    constructor
    · intro hmem
      exact hnc (mem_pyStrip hmem)
    · exact noEdgeWs_pyStrip _

/-! ### Helper lemmas about the per-card pipeline -/

theorem process_card_ok_some {env : Env} {pt pu : String} {card : Card}
    {row : List String} (h : process_card env pt pu card = .ok (some row)) :
    is_within_nairobi_area env (card_location_fields card).1 = true ∧
      ∃ du, details_url_of card = .ok du ∧
        row = [(card_location_fields card).1, (card_location_fields card).2,
               optStrip card.size, optStrip card.bedrooms,
               optStrip card.bathrooms, extract_price env du, pt, pu] := by
  unfold process_card at h
  by_cases hw : is_within_nairobi_area env (card_location_fields card).1 = true
  · rw [if_pos hw] at h
    cases hdu : details_url_of card with
    | error e => rw [hdu] at h; exact Except.noConfusion h
    | ok du =>
      rw [hdu] at h
      exact ⟨hw, du, rfl, (Option.some.inj (Except.ok.inj h)).symm⟩
  · rw [if_neg hw] at h
    exact Option.noConfusion (Except.ok.inj h)

theorem row_length_eight {env : Env} {pt pu : String} {card : Card}
    {row : List String} (h : process_card env pt pu card = .ok (some row)) :
    row.length = 8 := by
  obtain ⟨-, du, -, hrow⟩ := process_card_ok_some h
  rw [hrow]
  rfl

theorem mem_process_cards {env : Env} {pt pu : String} {row : List String} :
    ∀ {cards : List Card}, row ∈ process_cards env pt pu cards →
      ∃ card, card ∈ cards ∧ process_card env pt pu card = .ok (some row) := by
  intro cards
  induction cards with
  | nil => intro h; exact absurd h (List.not_mem_nil row)
  | cons c cs ih =>
    intro h
    cases hc : process_card env pt pu c with
    | error e =>
      rw [process_cards, hc] at h
      exact absurd h (List.not_mem_nil row)
    | ok o =>
      cases o with
      | none =>
        rw [process_cards, hc] at h
        obtain ⟨card, hm, hp⟩ := ih h
        exact ⟨card, List.mem_cons_of_mem _ hm, hp⟩
      | some r =>
        rw [process_cards, hc] at h
        rcases List.mem_cons.mp h with h1 | h2
        · exact ⟨c, List.mem_cons_self _ _, by rw [hc, h1]⟩
        · obtain ⟨card, hm, hp⟩ := ih h2
          exact ⟨card, List.mem_cons_of_mem _ hm, hp⟩

theorem mem_fetch_properties {env : Env} {url : String} {row : List String}
    (h : row ∈ fetch_properties env url) :
    ∃ card, process_card env (get_property_type url).1
      (get_property_type url).2 card = .ok (some row) := by
  unfold fetch_properties at h
  cases hf : env.fetch_props url with
  | raised => rw [hf] at h; exact absurd h (List.not_mem_nil row)
  | ok soup =>
    rw [hf] at h
    obtain ⟨card, -, hp⟩ := mem_process_cards h
    exact ⟨card, hp⟩

/-! ### Helper lemmas about pagination -/

theorem page_step_exhausted {env : Env} {base : String} {page : Nat}
    {rows : List (List String)} (h : page_step env base page = .exhausted rows) :
    rows = fetch_properties env (page_url base page) := by
  unfold page_step at h
  split at h
  · exact PageStep.noConfusion h
  · split at h
    · exact (PageStep.exhausted.inj h).symm
    · exact PageStep.noConfusion h

theorem page_step_next {env : Env} {base : String} {page : Nat}
    {rows : List (List String)} (h : page_step env base page = .next rows) :
    rows = fetch_properties env (page_url base page) := by
  unfold page_step at h
  split at h
  · exact PageStep.noConfusion h
  · split at h
    · exact PageStep.noConfusion h
    · exact (PageStep.next.inj h).symm

theorem page_step_raised {env : Env} {base : String} {page : Nat}
    (hf : env.fetch_outer (page_url base page) = .raised) :
    page_step env base page = .crashed := by
  unfold page_step
  rw [hf]

theorem page_step_ok {env : Env} {base : String} {page : Nat}
    {soup : ListingPage}
    (hf : env.fetch_outer (page_url base page) = .ok soup) :
    page_step env base page =
      if (fetch_properties env (page_url base page)).isEmpty
          || !has_next_page soup then
        .exhausted (fetch_properties env (page_url base page))
      else
        .next (fetch_properties env (page_url base page)) := by
  unfold page_step
  rw [hf]

theorem scrape_category_rows {env : Env} {base : String} :
    ∀ {fuel page : Nat} {r : RunResult},
      scrape_category env base page fuel = some r →
      ∀ {row : List String}, row ∈ r.rows →
        ∃ p, row ∈ fetch_properties env (page_url base p) := by
  intro fuel
  induction fuel with
  | zero => intro page r h; exact Option.noConfusion h
  | succ n ih =>
    intro page r h row hm
    rw [scrape_category] at h
    cases hs : page_step env base page with
    | crashed =>
      rw [hs] at h
      rw [← Option.some.inj h] at hm
      exact absurd hm (List.not_mem_nil row)
    | exhausted rows0 =>
      rw [hs] at h
      rw [← Option.some.inj h] at hm
      exact ⟨page, page_step_exhausted hs ▸ hm⟩
    | next rows0 =>
      rw [hs] at h
      cases hrec : scrape_category env base (page + 1) n with
      | none => rw [hrec] at h; exact Option.noConfusion h
      | some r1 =>
        rw [hrec] at h
        rw [← Option.some.inj h] at hm
        rcases List.mem_append.mp hm with h1 | h2
        · exact ⟨page, page_step_next hs ▸ h1⟩
        · exact ih hrec h2

theorem scrape_categories_rows {env : Env} {fuel : Nat} :
    ∀ {urls : List String} {r : RunResult},
      scrape_categories env fuel urls = some r →
      ∀ {row : List String}, row ∈ r.rows →
        ∃ base p, row ∈ fetch_properties env (page_url base p) := by
  intro urls
  induction urls with
  | nil =>
    intro r h row hm
    rw [← Option.some.inj h] at hm
    exact absurd hm (List.not_mem_nil row)
  | cons base rest ih =>
    intro r h row hm
    rw [scrape_categories] at h
    split at h
    · exact Option.noConfusion h
    · rename_i r1 heq
      split at h
      · rw [← Option.some.inj h] at hm
        obtain ⟨p, hp⟩ := scrape_category_rows heq hm
        exact ⟨base, p, hp⟩
      · split at h
        · exact Option.noConfusion h
        · rename_i r2 heq2
          rw [← Option.some.inj h] at hm
          rcases List.mem_append.mp hm with h1 | h3
          · obtain ⟨p, hp⟩ := scrape_category_rows heq h1
            exact ⟨base, p, hp⟩
          · exact ih heq2 h3

theorem scrape_category_halts (env : Env) (base : String) :
    ∀ (k page : Nat), (∀ rows, page_step env base (page + k) ≠ .next rows) →
      (scrape_category env base page (k + 1)).isSome = true := by
  intro k
  induction k with
  | zero =>
    intro page hstop
    rw [Nat.add_zero] at hstop
    cases hs : page_step env base page with
    | next rows => exact absurd hs (hstop rows)
    | crashed => rw [scrape_category, hs]; rfl
    | exhausted rows => rw [scrape_category, hs]; rfl
  | succ n ih =>
    intro page hstop
    cases hs : page_step env base page with
    | crashed => rw [scrape_category, hs]; rfl
    | exhausted rows => rw [scrape_category, hs]; rfl
    | next rows =>
      have hrec := ih (page + 1) (by
        intro rows2
        rw [show page + 1 + n = page + (n + 1) by omega]
        exact hstop rows2)
      rw [scrape_category, hs]
      cases hr : scrape_category env base (page + 1) (n + 1) with
      | none => rw [hr] at hrec; exact Bool.noConfusion hrec
      | some r => rfl

/-! ### A first-match characterization of `List.find?` -/

theorem find_first_spec {α : Type} (p : α → Bool) (l : List α) :
    ((∀ a ∈ l, p a = false) ∧ l.find? p = none)
  ∨ (∃ i, ∃ h : i < l.length, p (l.get ⟨i, h⟩) = true
      ∧ (∀ a ∈ l.take i, p a = false)
      ∧ l.find? p = some (l.get ⟨i, h⟩)) := by
  induction l with
  | nil => exact Or.inl ⟨by simp, rfl⟩
  | cons a l ih =>
    cases hp : p a with
    | true =>
      refine Or.inr ⟨0, by simp, ?_, ?_, ?_⟩
      · exact hp
      · simp
      · simp [List.find?, hp]
    | false =>
      rcases ih with ⟨hall, hnone⟩ | ⟨i, h, hpi, htake, hfind⟩
      · refine Or.inl ⟨?_, ?_⟩
        · intro x hx
          rcases List.mem_cons.mp hx with h1 | h2
          · rw [h1]; exact hp
          · exact hall x h2
        · simp [List.find?, hp, hnone]
      · refine Or.inr ⟨i + 1, Nat.succ_lt_succ h, ?_, ?_, ?_⟩
        · exact hpi
        · intro x hx
          rw [List.take_succ_cons] at hx
          rcases List.mem_cons.mp hx with h1 | h2
          · rw [h1]; exact hp
          · exact htake x h2
        · simp [List.find?, hp, hfind]

/-! ### Claim theorems -/

/-- C1: every row yielded by `fetch_properties` starts with a location on
which `is_within_nairobi_area` returned `true`, and a card whose resolved
location geocodes to a point strictly farther than `MAX_DISTANCE` from the
reference center never produces a row. -/
theorem geo_invariant (env : Env) (url : String) :
    (∀ r ∈ fetch_properties env url,
       ∃ loc rest, r = loc :: rest ∧ is_within_nairobi_area env loc = true)
  ∧ (∀ pt pu card p,
       env.geocode ((card_location_fields card).1 ++ ", Kenya") =
         .resolved (some p) →
       MAX_DISTANCE < env.geodesic_km NAIROBI_COORDS p →
       ∀ r, process_card env pt pu card ≠ .ok (some r)) := by
  constructor
  · intro r hr
    obtain ⟨card, hp⟩ := mem_fetch_properties hr
    obtain ⟨hw, du, hdu, hrow⟩ := process_card_ok_some hp
    exact ⟨_, _, hrow, hw⟩
  · intro pt pu card p hg hd r hcon
    obtain ⟨hw, -⟩ := process_card_ok_some hcon
    unfold is_within_nairobi_area at hw
    rw [hg] at hw
    exact absurd (of_decide_eq_true hw) (not_le.mpr hd)

/-- C1 witness: a concrete row passes the filter, and a concrete far-away
card produces no row. -/
theorem geo_invariant_witness :
    rowA ∈ fetch_properties envA urlSale
  ∧ (∃ loc rest, rowA = loc :: rest ∧ is_within_nairobi_area envA loc = true)
  ∧ envFar.geocode ((card_location_fields cardA).1 ++ ", Kenya") =
      .resolved (some (10, 10))
  ∧ MAX_DISTANCE < envFar.geodesic_km NAIROBI_COORDS (10, 10)
  ∧ process_card envFar "House" "Sale" cardA ≠ .ok (some rowA) :=
  ⟨by decide, (geo_invariant envA urlSale).1 rowA (by decide), rfl, by decide,
   (geo_invariant envFar urlSale).2 "House" "Sale" cardA (10, 10) rfl
     (by decide) rowA⟩

/-- C2: `is_within_nairobi_area` returns `true` exactly when geocoding the
text with the `", Kenya"` qualifier resolves to a point whose distance from
the reference center is at most `MAX_DISTANCE = 30` (boundary included), and
it returns `false` — rather than propagating the failure — on a geocoding
exception or a no-match answer. -/
theorem is_within_spec (env : Env) (text : String) :
    MAX_DISTANCE = 30
  ∧ (is_within_nairobi_area env text = true ↔
       ∃ p, env.geocode (text ++ ", Kenya") = .resolved (some p)
         ∧ env.geodesic_km NAIROBI_COORDS p ≤ MAX_DISTANCE)
  ∧ (env.geocode (text ++ ", Kenya") = .raised →
       is_within_nairobi_area env text = false)
  ∧ (env.geocode (text ++ ", Kenya") = .resolved none →
       is_within_nairobi_area env text = false) := by
  refine ⟨rfl, ?_, ?_, ?_⟩
  · unfold is_within_nairobi_area
    cases hg : env.geocode (text ++ ", Kenya") with
    | raised => simp
    | resolved o =>
      cases o with
      | none => simp
      | some q => simp
  · intro hg
    unfold is_within_nairobi_area
    rw [hg]
  · intro hg
    unfold is_within_nairobi_area
    rw [hg]

/-- C2 witness: distance exactly `MAX_DISTANCE` is included, and a raising
geocoder yields `false`. -/
theorem is_within_spec_witness :
    is_within_nairobi_area envBoundary "Westlands" = true
  ∧ is_within_nairobi_area envFail "Anywhere" = false :=
  ⟨(is_within_spec envBoundary "Westlands").2.1.mpr ⟨(1, 1), rfl, by decide⟩,
   (is_within_spec envFail "Anywhere").2.2.1 rfl⟩

/-- C3 counterexample: in an environment where the page-fetch capability
fails, the run does NOT continue to the next category and complete with exit
status 0 — the unprotected `requests.get` at `main.py` line 165 raises, the
exception propagates (`crashed = true`, a nonzero exit), only the header is
written, and the second category is never visited. -/
theorem scrape_transport_crash_cex :
    scrape_all_properties envFail
        ["https://www.buyrentkenya.com/houses-for-sale",
         "https://www.buyrentkenya.com/flats-apartments-for-sale"] 5 =
      some { file_rows := [header_row], crashed := true }
  ∧ (scrape_all_properties envFail
        ["https://www.buyrentkenya.com/houses-for-sale",
         "https://www.buyrentkenya.com/flats-apartments-for-sale"] 5).map
      CsvFile.crashed ≠ some false := by
  refine ⟨by decide, by decide⟩

/-- C3 amended: a transport failure in the fetch performed inside
`fetch_properties` is caught and treated as zero properties; if additionally
the pagination loop's own fetch of the page succeeds, the category
terminates normally and the run goes on (`crashed = false`).  But when the
pagination loop's own unprotected fetch fails, the run aborts with
`crashed = true`. -/
theorem scrape_transport_amended (env : Env) (url base : String)
    (page fuel : Nat) (soup : ListingPage) :
    (env.fetch_props url = .raised → fetch_properties env url = [])
  ∧ (env.fetch_outer (page_url base page) = .raised →
       scrape_category env base page (fuel + 1) =
         some { rows := [], crashed := true })
  ∧ (env.fetch_props (page_url base page) = .raised →
       env.fetch_outer (page_url base page) = .ok soup →
       scrape_category env base page (fuel + 1) =
         some { rows := [], crashed := false }) := by
  refine ⟨?_, ?_, ?_⟩
  · intro h
    unfold fetch_properties
    rw [h]
  · intro h
    have hs : page_step env base page = .crashed := by
      unfold page_step
      rw [h]
    rw [scrape_category, hs]
  · intro hp ho
    have hrows : fetch_properties env (page_url base page) = [] := by
      unfold fetch_properties
      rw [hp]
    have hs : page_step env base page = .exhausted [] := by
      unfold page_step
      rw [ho, hrows]
      rfl
    rw [scrape_category, hs]

/-- C3 amended witness. -/
theorem scrape_transport_amended_witness :
    fetch_properties envMixed "u" = []
  ∧ scrape_category envFail "b" 1 1 = some { rows := [], crashed := true }
  ∧ scrape_category envMixed "b" 1 1 = some { rows := [], crashed := false } :=
  ⟨(scrape_transport_amended envMixed "u" "b" 1 0 pageEmpty).1 rfl,
   (scrape_transport_amended envFail "u" "b" 1 0 pageEmpty).2.1 rfl,
   (scrape_transport_amended envMixed "u" "b" 1 0 pageEmpty).2.2 rfl rfl⟩

/-- C4 counterexample: `cardB`'s detail-link node is absent, yet for the
accepted card the detail fetch IS performed — on the placeholder URL
`"None"` (`extract_price` is called with `details_url = 'None'` and its
`requests.get('None')` is issued) — contradicting "DetailEnricher is not
invoked for that card". -/
theorem detail_fetch_missing_link_cex :
    cardB.price_tag = none
  ∧ card_detail_fetches envB cardB = ["None"]
  ∧ process_card envB "House" "Sale" cardB =
      .ok (some ["Kilimani", "", "None", "None", "None", "None",
                 "House", "Sale"]) := by
  refine ⟨rfl, by decide, by decide⟩

/-- C4 amended: when the detail-link node is absent the details URL is the
literal `"None"` and the detail fetch IS invoked on it for an accepted card;
the price field is `"None"` whenever the detail fetch of the resolved URL
fails (in particular for the non-URL `"None"`), and processing continues with
the next card. -/
theorem detail_price_amended (env : Env) (pt pu du : String) (card : Card)
    (cs : List Card) (r : List String) :
    (card.price_tag = none → details_url_of card = .ok "None")
  ∧ (card.price_tag = none →
       is_within_nairobi_area env (card_location_fields card).1 = true →
       card_detail_fetches env card = ["None"])
  ∧ (details_url_of card = .ok du → env.fetch_detail du = .raised →
       process_card env pt pu card = .ok none ∨
       process_card env pt pu card =
         .ok (some [(card_location_fields card).1,
                    (card_location_fields card).2, optStrip card.size,
                    optStrip card.bedrooms, optStrip card.bathrooms,
                    "None", pt, pu]))
  ∧ (process_card env pt pu card = .ok (some r) →
       process_cards env pt pu (card :: cs) =
         r :: process_cards env pt pu cs) := by
  refine ⟨?_, ?_, ?_, ?_⟩
  · intro h
    unfold details_url_of
    rw [h]
  · intro h hw
    unfold card_detail_fetches
    rw [if_pos hw, show details_url_of card = .ok "None" from by
      unfold details_url_of; rw [h]]
  · intro hdu hf
    by_cases hw : is_within_nairobi_area env (card_location_fields card).1 = true
    · right
      have hep : extract_price env du = "None" := by
        unfold extract_price
        rw [hf]
      unfold process_card
      rw [if_pos hw, hdu]
      show Except.ok (some [(card_location_fields card).1,
            (card_location_fields card).2, optStrip card.size,
            optStrip card.bedrooms, optStrip card.bathrooms,
            extract_price env du, pt, pu]) = _
      rw [hep]
    · left
      unfold process_card
      rw [if_neg hw]
  · intro h
    rw [process_cards, h]

/-- C4 amended witness. -/
theorem detail_price_amended_witness :
    details_url_of cardB = .ok "None"
  ∧ card_detail_fetches envB cardB = ["None"]
  ∧ (process_card envB "House" "Sale" cardB = .ok none ∨
     process_card envB "House" "Sale" cardB =
       .ok (some [(card_location_fields cardB).1,
                  (card_location_fields cardB).2, optStrip cardB.size,
                  optStrip cardB.bedrooms, optStrip cardB.bathrooms,
                  "None", "House", "Sale"]))
  ∧ process_cards envB "House" "Sale" [cardB, cardNoLoc] =
      ["Kilimani", "", "None", "None", "None", "None", "House", "Sale"] ::
        process_cards envB "House" "Sale" [cardNoLoc] :=
  ⟨(detail_price_amended envB "House" "Sale" "None" cardB [] []).1 rfl,
   (detail_price_amended envB "House" "Sale" "None" cardB [] []).2.1 rfl
     (by decide),
   (detail_price_amended envB "House" "Sale" "None" cardB [] []).2.2.1
     (by decide) rfl,
   (detail_price_amended envB "House" "Sale" "None" cardB [cardNoLoc]
      ["Kilimani", "", "None", "None", "None", "None", "House", "Sale"]).2.2.2
     (by decide)⟩

/-- C5 counterexample: for a card with no location node, the geographic
filter is consulted on the placeholder text `"None"` itself — not only on
successfully parsed locations — and when `"None, Kenya"` happens to geocode
within the radius the card even produces a record. -/
theorem geo_placeholder_cex :
    cardNoLoc.location = none
  ∧ card_geo_queries cardNoLoc = ["None"]
  ∧ is_within_nairobi_area envNone "None" = true
  ∧ process_card envNone "House" "Sale" cardNoLoc =
      .ok (some ["None", "None", "None", "None", "None", "None",
                 "House", "Sale"]) := by
  refine ⟨rfl, rfl, by decide, by decide⟩

/-- C5 amended: a card with an absent location node gets
`location = otherLocationDetails = "None"`, and the filter is never bypassed:
every produced record passed `is_within_nairobi_area` on its location field —
but that field may be the placeholder `"None"` itself, which is geocoded like
any other text. -/
theorem location_placeholder_amended (env : Env) (pt pu : String)
    (card : Card) (r : List String) :
    (card.location = none → card_location_fields card = ("None", "None"))
  ∧ (process_card env pt pu card = .ok (some r) →
       (∃ rest, r = (card_location_fields card).1 :: rest)
     ∧ is_within_nairobi_area env (card_location_fields card).1 = true) := by
  constructor
  · intro h
    unfold card_location_fields
    rw [h]
  · intro h
    obtain ⟨hw, du, hdu, hrow⟩ := process_card_ok_some h
    exact ⟨⟨_, hrow⟩, hw⟩

/-- C5 amended witness. -/
theorem location_placeholder_amended_witness :
    card_location_fields cardNoLoc = ("None", "None")
  ∧ ((∃ rest,
        ["None", "None", "None", "None", "None", "None", "House", "Sale"] =
          (card_location_fields cardNoLoc).1 :: rest)
     ∧ is_within_nairobi_area envNone (card_location_fields cardNoLoc).1 =
         true) :=
  ⟨(location_placeholder_amended envNone "House" "Sale" cardNoLoc []).1 rfl,
   (location_placeholder_amended envNone "House" "Sale" cardNoLoc
      ["None", "None", "None", "None", "None", "None", "House", "Sale"]).2
     (by decide)⟩

/-- C6: the pagination loop uses the base URL unmodified for page 1 and
appends `?page=<n>` for later pages; given a successful page fetch, the loop
body ends the category (`exhausted`) exactly when the extracted row sequence
is empty or the next-page indicator is absent; and the loop terminates for
any category with a page at which the rows are empty or the indicator is
absent. -/
theorem pagination_controller_spec (env : Env) (base : String) (n : Nat)
    (soup : ListingPage) :
    page_url base 1 = base
  ∧ (2 ≤ n → page_url base n = base ++ "?page=" ++ toString n)
  ∧ (env.fetch_outer (page_url base n) = .ok soup →
       ((∃ rows, page_step env base n = .exhausted rows) ↔
         (fetch_properties env (page_url base n) = [] ∨
          has_next_page soup = false)))
  ∧ (∀ N, 1 ≤ N →
       (fetch_properties env (page_url base N) = [] ∨
        (∀ s, env.fetch_outer (page_url base N) = .ok s →
           has_next_page s = false)) →
       (scrape_category env base 1 N).isSome = true) := by
  refine ⟨?_, ?_, ?_, ?_⟩
  · unfold page_url
    rw [if_neg (by omega)]
  · intro h
    unfold page_url
    rw [if_pos (by omega)]
  · intro hf
    rw [page_step_ok hf]
    cases hc : (fetch_properties env (page_url base n)).isEmpty
        || !has_next_page soup with
    | true =>
      rw [if_pos rfl]
      constructor
      · intro _
        simp only [Bool.or_eq_true, Bool.not_eq_true', List.isEmpty_iff]
          at hc
        exact hc
      · intro _
        exact ⟨_, rfl⟩
    | false =>
      rw [if_neg Bool.false_ne_true]
      constructor
      · rintro ⟨rows, hx⟩
        exact PageStep.noConfusion hx
      · intro hrhs
        exfalso
        rcases hrhs with h1 | h2
        · rw [h1] at hc
          simp at hc
        · rw [h2] at hc
          simp at hc
  · intro N h1 hcond
    have hstop : ∀ rows, page_step env base N ≠ .next rows := by
      intro rows hcontra
      cases hf : env.fetch_outer (page_url base N) with
      | raised =>
        rw [page_step_raised hf] at hcontra
        exact PageStep.noConfusion hcontra
      | ok s =>
        rw [page_step_ok hf] at hcontra
        have hcondb : ((fetch_properties env (page_url base N)).isEmpty
            || !has_next_page s) = true := by
          rcases hcond with h2 | h2
          · rw [h2]
            rfl
          · rw [h2 s hf]
            simp
        rw [if_pos hcondb] at hcontra
        exact PageStep.noConfusion hcontra
    have hh := scrape_category_halts env base (N - 1) 1 (by
      intro rows
      rw [show 1 + (N - 1) = N by omega]
      exact hstop rows)
    rw [show N - 1 + 1 = N by omega] at hh
    exact hh

/-- C6 witness. -/
theorem pagination_controller_spec_witness :
    page_url "b" 1 = "b"
  ∧ page_url "b" 2 = "b?page=2"
  ∧ ((∃ rows, page_step envMixed "b" 1 = .exhausted rows) ↔
      (fetch_properties envMixed (page_url "b" 1) = [] ∨
       has_next_page pageEmpty = false))
  ∧ (scrape_category envMixed "b" 1 1).isSome = true :=
  ⟨(pagination_controller_spec envMixed "b" 1 pageEmpty).1,
   (pagination_controller_spec envMixed "b" 2 pageEmpty).2.1 (by decide),
   (pagination_controller_spec envMixed "b" 1 pageEmpty).2.2.1 rfl,
   (pagination_controller_spec envMixed "b" 1 pageEmpty).2.2.2 1 (by decide)
     (Or.inl (by decide))⟩

/-- C7: `get_property_type` returns the value of the first key of
`property_types` occurring as a substring of the URL, and
`("Unknown", "Unknown")` when no key occurs.  (The function is a pure Lean
function of the URL, hence deterministic and side-effect free.) -/
theorem get_property_type_first_match (url : String) :
    ((∀ kv ∈ property_types, pyIn kv.1 url = false)
      ∧ get_property_type url = ("Unknown", "Unknown"))
  ∨ (∃ i, ∃ h : i < property_types.length,
       pyIn (property_types.get ⟨i, h⟩).1 url = true
     ∧ (∀ kv ∈ property_types.take i, pyIn kv.1 url = false)
     ∧ get_property_type url = (property_types.get ⟨i, h⟩).2) := by
  rcases find_first_spec (fun kv => pyIn kv.1 url) property_types with
    ⟨hall, hnone⟩ | ⟨i, h, hpi, htake, hfind⟩
  · refine Or.inl ⟨hall, ?_⟩
    unfold get_property_type
    rw [hnone]
  · refine Or.inr ⟨i, h, hpi, htake, ?_⟩
    unfold get_property_type
    rw [hfind]

/-- C7 witness. -/
theorem get_property_type_first_match_witness :
    ((∀ kv ∈ property_types, pyIn kv.1 urlBedsit = false)
      ∧ get_property_type urlBedsit = ("Unknown", "Unknown"))
  ∨ (∃ i, ∃ h : i < property_types.length,
       pyIn (property_types.get ⟨i, h⟩).1 urlBedsit = true
     ∧ (∀ kv ∈ property_types.take i, pyIn kv.1 urlBedsit = false)
     ∧ get_property_type urlBedsit = (property_types.get ⟨i, h⟩).2) :=
  get_property_type_first_match urlBedsit

/-- C8: `parse_location` splits on the first comma and strips both halves;
with no comma present, the second component is empty and the first is the
stripped original text. -/
theorem parse_location_spec (t : String) :
    (',' ∈ t.toList →
       ∃ a b, t.toList = a ++ ',' :: b ∧ ',' ∉ a ∧
         parse_location t = (pyStrip (String.mk a), pyStrip (String.mk b)))
  ∧ (',' ∉ t.toList → parse_location t = (pyStrip t, "")) := by
  constructor
  · intro hmem
    cases h : splitFirstComma t.toList with
    | none => exact absurd hmem (splitFirstComma_none.mp h)
    | some ab =>
      obtain ⟨a, b⟩ := ab
      obtain ⟨hl, hnc⟩ := splitFirstComma_some h
      refine ⟨a, b, hl, hnc, ?_⟩
      unfold parse_location
      rw [h]
  · intro hmem
    unfold parse_location
    rw [splitFirstComma_none.mpr hmem]

/-- C8 witness. -/
theorem parse_location_spec_witness :
    (∃ a b, ("Kilimani, Nairobi").toList = a ++ ',' :: b ∧ ',' ∉ a ∧
       parse_location "Kilimani, Nairobi" =
         (pyStrip (String.mk a), pyStrip (String.mk b)))
  ∧ parse_location " Karen " = (pyStrip " Karen ", "") :=
  ⟨(parse_location_spec "Kilimani, Nairobi").1 (by decide),
   (parse_location_spec " Karen ").2 (by decide)⟩

/-- C9 counterexample: the header line as serialized by `csv.writer`
(default dialect) is the comma-delimited text WITHOUT spaces after the
commas, so it is not the text `Location, Other Location Details, ...`
claimed verbatim. -/
theorem header_text_cex :
    csv_line header_row =
      "Location,Other Location Details,Size,Bedrooms,Bathrooms,Price,Property Type,Purchase Type"
  ∧ csv_line header_row ≠
      "Location, Other Location Details, Size, Bedrooms, Bathrooms, Price, Property Type, Purchase Type" := by
  refine ⟨by decide, by decide⟩

/-- C9 amended: the output begins with the eight-name header row written
once at run start (serialized with bare comma delimiters), and every data
row after it has exactly the eight fields in order. -/
theorem output_table_amended (env : Env) (base_urls : List String)
    (fuel : Nat) (out : CsvFile) (r : List String) :
    csv_line header_row =
      "Location,Other Location Details,Size,Bedrooms,Bathrooms,Price,Property Type,Purchase Type"
  ∧ (scrape_all_properties env base_urls fuel = some out →
       out.file_rows.head? = some header_row)
  ∧ (scrape_all_properties env base_urls fuel = some out →
       r ∈ out.file_rows.tail → r.length = 8) := by
  refine ⟨by decide, ?_, ?_⟩
  · intro h
    unfold scrape_all_properties at h
    cases hc : scrape_categories env fuel base_urls with
    | none => rw [hc] at h; exact Option.noConfusion h
    | some r0 =>
      rw [hc] at h
      rw [← Option.some.inj h]
      rfl
  · intro h hm
    unfold scrape_all_properties at h
    cases hc : scrape_categories env fuel base_urls with
    | none => rw [hc] at h; exact Option.noConfusion h
    | some r0 =>
      rw [hc] at h
      rw [← Option.some.inj h] at hm
      obtain ⟨base, p, hp⟩ := scrape_categories_rows hc hm
      obtain ⟨card, hpc⟩ := mem_fetch_properties hp
      exact row_length_eight hpc

/-- C9 amended witness. -/
theorem output_table_amended_witness :
    outA.file_rows.head? = some header_row ∧ rowA.length = 8 :=
  ⟨(output_table_amended envA [urlSale] 3 outA rowA).2.1 (by decide),
   (output_table_amended envA [urlSale] 3 outA rowA).2.2 (by decide)
     (by decide)⟩

/-- C10: the location field of every emitted record contains no comma and no
leading or trailing whitespace: it is the literal `"None"` or the first
component of `parse_location` applied to the card's stripped location text
(the trimmed segment before the first comma). -/
theorem record_location_invariant (env : Env) (url : String)
    (r : List String) (hr : r ∈ fetch_properties env url) :
    ∃ loc rest, r = loc :: rest
      ∧ ',' ∉ loc.toList
      ∧ noEdgeWs loc.toList = true
      ∧ (loc = "None" ∨ ∃ t, loc = (parse_location (pyStrip t)).1) := by
  obtain ⟨card, hp⟩ := mem_fetch_properties hr
  obtain ⟨hw, du, hdu, hrow⟩ := process_card_ok_some hp
  cases hl : card.location with
  | none =>
    have hx : (card_location_fields card).1 = "None" := by
      unfold card_location_fields
      rw [hl]
    rw [hx] at hrow
    exact ⟨"None", _, hrow, by decide, by decide, Or.inl rfl⟩
  | some t =>
    have hx : (card_location_fields card).1 =
        (parse_location (pyStrip t)).1 := by
      unfold card_location_fields
      rw [hl]
    rw [hx] at hrow
    exact ⟨(parse_location (pyStrip t)).1, _, hrow,
      (parse_location_fst _).1, (parse_location_fst _).2, Or.inr ⟨t, rfl⟩⟩

/-- C10 witness. -/
theorem record_location_invariant_witness :
    ∃ loc rest, rowA = loc :: rest
      ∧ ',' ∉ loc.toList
      ∧ noEdgeWs loc.toList = true
      ∧ (loc = "None" ∨ ∃ t, loc = (parse_location (pyStrip t)).1) :=
  record_location_invariant envA urlSale rowA (by decide)

end Scraper
